import Mathlib

/-!
Shallow embedding of the LSIF upload ingestion and retention pipeline
(worker conversion module): `convertDatabase`, the visibility update
`updateCommitsAndDumpsVisibleFromTip`, and the retention enforcer
`purgeOldDumps`.

External collaborators (the converter, the dump manager, the dependency
manager, the filesystem and the store-backed lock) are modelled by
oracles describing the outcome of each call; every effectful call is
recorded in an explicit event trace so that ordering and lock-scoping
properties can be stated.  Sequential `await` chains in the source are
modelled by explicit state passing.
-/

/-- An unprocessed LSIF upload record (`pgModels.LsifUpload`): the fields
the conversion module reads. -/
structure Upload where
  id : Nat
  repository : String
  commit : String
  root : String
  filename : String
deriving DecidableEq

/-- Modelled from the spec: `path.basename`, the last path component of a
filename (the `paths` helper module is not under src). -/
def basename (f : String) : String :=
  (f.splitOn "/").getLastD f

/-- Modelled from the spec: the temp destination
`path.join(STORAGE_ROOT, TEMP_DIR, path.basename(upload.filename))`, a
deterministic path inside a dedicated temp area of the storage root
(`settings`/`constants` modules are not under src; the storage root is
passed explicitly). -/
def tempPath (storageRoot : String) (filename : String) : String :=
  storageRoot ++ "/temp/" ++ basename filename

/-- Modelled from the spec: `dbFilename(storageRoot, id, repository, commit)`,
the deterministic final artifact path derived from (storage root, artifact
id, repository, commit) (the `paths` module is not under src). -/
def dbFilename (storageRoot : String) (id : Nat) (repository commit : String) : String :=
  storageRoot ++ "/dbs/" ++ toString id ++ ":" ++ repository ++ ":" ++ commit ++ ".db"

/-- Outcome of the external converter `convertLsif(upload.filename, tempFile)`:
it either succeeds (leaving the converted database at the temp path), fails
after having created the temp file, or fails without creating it. -/
inductive ConvOutcome
  | ok
  | failCreated
  | failNotCreated
deriving DecidableEq

/-- Oracle fixing the outcome of each external call made by
`convertDatabase`: the converter, `deleteOverlappingDumps`,
`addPackagesAndReferences`, `fs.rename`, and non-existence filesystem
failures of `fs.unlink` (an unlink of a missing path fails deterministically
with ENOENT, independent of this oracle). -/
structure ConvertOracle where
  convResult : ConvOutcome
  overlapFails : Bool
  insertFails : Bool
  renameFails : Bool
  unlinkFails : String → Bool

/-- The filesystem state: the set of existing paths. -/
structure FsState where
  files : List String
deriving DecidableEq

/-- Errors that can escape `convertDatabase`: one per failing external call,
plus the two filesystem error shapes of `fs.unlink`/`fs.rename`. -/
inductive Err
  | convertErr
  | overlapErr
  | insertErr
  | renameErr
  | enoent (p : String)
  | unlinkErr (p : String)
deriving DecidableEq

/-- One effectful call performed by `convertDatabase`, in invocation order. -/
inductive Event
  | convert (src dst : String)
  | deleteOverlapping (repository commit root : String)
  | addPackagesAndReferences (id : Nat)
  | rename (src dst : String)
  | unlink (p : String)
deriving DecidableEq

/-- Semantics of `fs.unlink`: ENOENT when the path does not exist, an
oracle-chosen failure otherwise, else the path is removed. -/
def fsUnlink (o : ConvertOracle) (s : FsState) (p : String) : Except Err FsState :=
  if p ∈ s.files then
    if o.unlinkFails p then .error (.unlinkErr p)
    else .ok ⟨s.files.filter (fun q => q ≠ p)⟩
  else .error (.enoent p)

/-- Semantics of `fs.rename`: ENOENT when the source does not exist, an
oracle-chosen failure otherwise, else the source path is atomically moved to
the destination path. -/
def fsRename (o : ConvertOracle) (s : FsState) (src dst : String) : Except Err FsState :=
  if src ∈ s.files then
    if o.renameFails then .error .renameErr
    else .ok ⟨dst :: s.files.filter (fun q => q ≠ src)⟩
  else .error (.enoent src)

/-- Result of one run of the try block of `convertDatabase`: the raised
error if any, the filesystem state reached, and the calls made. -/
structure TryOut where
  err? : Option Err
  fs : FsState
  trace : List Event
deriving DecidableEq

/-- The try block of `convertDatabase`: convert into the temp path, delete
overlapping dumps, insert packages and references, rename the temp file to
its final path.  Each step is awaited; the first failure aborts the rest. -/
def tryBody (o : ConvertOracle) (u : Upload) (storageRoot : String) (s : FsState) : TryOut :=
  let tmp := tempPath storageRoot u.filename
  match o.convResult with
  | .failNotCreated => ⟨some .convertErr, s, [.convert u.filename tmp]⟩
  | .failCreated => ⟨some .convertErr, ⟨tmp :: s.files⟩, [.convert u.filename tmp]⟩
  | .ok =>
    let s1 : FsState := ⟨tmp :: s.files⟩
    let tr1 := [Event.convert u.filename tmp,
                Event.deleteOverlapping u.repository u.commit u.root]
    if o.overlapFails then ⟨some .overlapErr, s1, tr1⟩
    else
      let tr2 := tr1 ++ [Event.addPackagesAndReferences u.id]
      if o.insertFails then ⟨some .insertErr, s1, tr2⟩
      else
        let dst := dbFilename storageRoot u.id u.repository u.commit
        let tr3 := tr2 ++ [Event.rename tmp dst]
        match fsRename o s1 tmp dst with
        | .error e => ⟨some e, s1, tr3⟩
        | .ok s2 => ⟨none, s2, tr3⟩

/-- Result of `convertDatabase`: the returned or raised value, the final
filesystem state, and the full call trace. -/
structure RunOut where
  result : Except Err Unit
  fs : FsState
  trace : List Event

/-- `convertDatabase`: run the try block; on failure unlink the temp file
(an error of that unlink replaces the original error) and rethrow; on
success unlink the upload source file. -/
def convertDatabase (o : ConvertOracle) (u : Upload) (storageRoot : String) (s : FsState) : RunOut :=
  let tmp := tempPath storageRoot u.filename
  let t := tryBody o u storageRoot s
  match t.err? with
  | some e =>
    match fsUnlink o t.fs tmp with
    | .ok s2 => ⟨.error e, s2, t.trace ++ [.unlink tmp]⟩
    | .error e2 => ⟨.error e2, t.fs, t.trace ++ [.unlink tmp]⟩
  | none =>
    match fsUnlink o t.fs u.filename with
    | .ok s2 => ⟨.ok (), s2, t.trace ++ [.unlink u.filename]⟩
    | .error e2 => ⟨.error e2, t.fs, t.trace ++ [.unlink u.filename]⟩

/-- The error raised by the first failing step of the try block, for an
oracle under which some step fails. -/
def firstFailure (o : ConvertOracle) : Err :=
  match o.convResult with
  | .ok =>
    if o.overlapFails then .overlapErr
    else if o.insertFails then .insertErr
    else .renameErr
  | _ => .convertErr

/-- A commit-graph fragment, as the JS `Map<string, Set<string>>` returned by
`discoverCommits`: an ordered association list from commit to its set of
parent commits, keys unique in any value a JS Map can take. -/
def Graph : Type := List (String × Finset String)

instance : DecidableEq Graph := by
  unfold Graph
  infer_instance

/-- Lookup of the JS `Map.get`: the value at the first matching key. -/
def Graph.get : Graph → String → Option (Finset String)
  | [], _ => none
  | (a, v) :: rest, k => if k = a then some v else Graph.get rest k

/-- The parent set at a key, defaulting to the empty set when the key is
absent, as in the source expression `commits.get(k) || []`. -/
def Graph.getD (g : Graph) (k : String) : Finset String :=
  (g.get k).getD ∅

/-- Update of the JS `Map.set`: replace the value at the first matching key,
or append a new entry when the key is absent. -/
def Graph.set : Graph → String → Finset String → Graph
  | [], k, v => [(k, v)]
  | (a, w) :: rest, k, v =>
    if k = a then (a, v) :: rest else (a, w) :: Graph.set rest k v

/-- The keys of a graph fragment, in entry order. -/
def Graph.keys (g : Graph) : List String :=
  g.map Prod.fst

/-- The merge loop of `updateCommitsAndDumpsVisibleFromTip`:
for each entry (k, v) of the second fragment, set k in the first fragment to
the union of its current parent set there (empty if absent) with v. -/
def mergeGraphs (m1 m2 : Graph) : Graph :=
  m2.foldl (fun acc kv => acc.set kv.1 (acc.getD kv.1 ∪ kv.2)) m1

/-- Errors of the visibility update: the repository has no resolvable tip. -/
inductive VisErr
  | noTip
deriving DecidableEq

/-- One call of the visibility update against the dump manager, in
invocation order. -/
inductive VisEvent
  | discoverTip
  | discoverCommits (anchor : String)
  | updateCommits (g : Graph)
  | updateDumpsVisibleFromTip (tip : String)
deriving DecidableEq

/-- Oracle for the external dump-manager calls of the visibility update:
the tip returned by `discoverTip` (none models undefined) and the
commit-graph fragment `discoverCommits` returns for each anchor commit. -/
structure VisOracle where
  tip : Option String
  discover : String → Graph

/-- `updateCommitsAndDumpsVisibleFromTip`: resolve the tip (failing when it
is undefined), discover the fragment from the processed commit, merge in the
fragment from the tip when the tip differs, then persist the merged graph
and recompute dump visibility. -/
def updateCommitsAndDumpsVisibleFromTip (o : VisOracle) (u : Upload) :
    Except VisErr Unit × List VisEvent :=
  match o.tip with
  | none => (.error .noTip, [.discoverTip])
  | some tipCommit =>
    let commits := o.discover u.commit
    let merged :=
      if tipCommit = u.commit then commits
      else mergeGraphs commits (o.discover tipCommit)
    (.ok (),
      [VisEvent.discoverTip, VisEvent.discoverCommits u.commit]
        ++ (if tipCommit = u.commit then [] else [VisEvent.discoverCommits tipCommit])
        ++ [VisEvent.updateCommits merged, VisEvent.updateDumpsVisibleFromTip tipCommit])

/-- A dump record, as read by the purge loop. -/
structure Dump where
  id : Nat
  repository : String
  commit : String
  root : String
deriving DecidableEq

/-- One effectful call performed by `purgeOldDumps`, in invocation order. -/
inductive PEvent
  | lockAcquire (name : String)
  | lockRelease (name : String)
  | dirsize
  | getOldestPrunableDump
  | logWarn
  | deleteDump (d : Dump)
deriving DecidableEq

/-- Whether an event is an acquisition or release of the advisory lock. -/
def PEvent.isLockEvent : PEvent → Bool
  | .lockAcquire _ => true
  | .lockRelease _ => true
  | _ => false

/-- Oracle for the external calls of `purgeOldDumps`: the directory size
reported by `dirsize`, the successive results of `getOldestPrunableDump`
(each call pops the next dump; an exhausted list models a null result), and
the size `filesize` reports for each path (zero for a missing file, so a
plain natural number). -/
structure PurgeOracle where
  initialSize : Nat
  dumps : List Dump
  filesize : String → Nat

/-- Result of the purge loop: the final running size, whether the
no-candidate warning was logged, and the calls made. -/
structure PurgeResult where
  finalSize : Int
  warned : Bool
  trace : List PEvent
deriving DecidableEq

/-- The while loop of `purgeOldDumps`: while the running size exceeds the
maximum, ask for the oldest prunable dump; if none, warn and break;
otherwise subtract its file size from the running total and delete it. -/
def purgeLoop (fsz : String → Nat) (storageRoot : String) (maximumSizeBytes : Int) :
    List Dump → Int → PurgeResult
  | dumps, size =>
    if size ≤ maximumSizeBytes then ⟨size, false, []⟩
    else
      match dumps with
      | [] => ⟨size, true, [.getOldestPrunableDump, .logWarn]⟩
      | d :: rest =>
        let filename := dbFilename storageRoot d.id d.repository d.commit
        let r := purgeLoop fsz storageRoot maximumSizeBytes rest (size - (fsz filename : Int))
        ⟨r.finalSize, r.warned, .getOldestPrunableDump :: .deleteDump d :: r.trace⟩

/-- `purgeOldDumps`: resolve immediately when the maximum size is negative;
otherwise run the directory-size measurement and the purge loop inside
`withLock(connection, 'retention', purge)`.  The pair holds the full call
trace and the loop result (none for the negative-quota no-op). -/
def purgeOldDumps (o : PurgeOracle) (storageRoot : String) (maximumSizeBytes : Int) :
    List PEvent × Option PurgeResult :=
  if maximumSizeBytes < 0 then ([], none)
  else
    let r := purgeLoop o.filesize storageRoot maximumSizeBytes o.dumps (o.initialSize : Int)
    (PEvent.lockAcquire "retention" :: PEvent.dirsize ::
        (r.trace ++ [PEvent.lockRelease "retention"]),
      some r)

/-- Scan of a conversion trace checking that every packages-and-references
insert is preceded by an overlap deletion; the accumulator records whether an
overlap deletion has been seen so far. -/
def insertAfterOverlap : Bool → List Event → Bool
  | _, [] => true
  | seen, e :: rest =>
    match e with
    | .deleteOverlapping _ _ _ => insertAfterOverlap true rest
    | .addPackagesAndReferences _ => seen && insertAfterOverlap seen rest
    | _ => insertAfterOverlap seen rest

/-- A sample upload used to instantiate theorems with hypotheses. -/
def upload0 : Upload := ⟨7, "repo", "commitA", "", "uploads/42.gz"⟩

/-- A sample initial filesystem holding only the upload source file. -/
def fsState0 : FsState := ⟨["uploads/42.gz"]⟩

/-- A sample oracle whose converter fails after creating the temp file. -/
def convOracleFailCreated : ConvertOracle :=
  ⟨.failCreated, false, false, false, fun _ => false⟩

/-- A sample oracle whose converter fails without creating the temp file. -/
def convOracleNotCreated : ConvertOracle :=
  ⟨.failNotCreated, false, false, false, fun _ => false⟩

/-- A sample oracle under which every step succeeds. -/
def convOracleOk : ConvertOracle :=
  ⟨.ok, false, false, false, fun _ => false⟩

/-- A sample oracle under which everything succeeds except the final unlink
of the upload source file. -/
def convOracleSrcUnlinkFail : ConvertOracle :=
  ⟨.ok, false, false, false, fun p => p == "uploads/42.gz"⟩

/-- A sample purge oracle: directory size 1100, one prunable dump whose file
is 600 bytes. -/
def purgeOracle0 : PurgeOracle :=
  ⟨1100, [⟨3, "repo", "commitB", ""⟩], fun _ => 600⟩

/-- A sample commit-graph fragment. -/
def graph1 : Graph := [("a", {"p"}), ("b", {"q"})]

/-- A second sample commit-graph fragment sharing the key "b". -/
def graph2 : Graph := [("b", {"r"}), ("c", ∅)]

theorem purgeLoop_warned_spec (fsz : String → Nat) (root : String) (m : Int) :
    ∀ (dumps : List Dump) (size : Int),
      ((purgeLoop fsz root m dumps size).warned = false →
        (purgeLoop fsz root m dumps size).finalSize ≤ m)
      ∧ ((purgeLoop fsz root m dumps size).warned = true →
        m < (purgeLoop fsz root m dumps size).finalSize) := by
  intro dumps
  induction dumps with
  | nil =>
    intro size
    by_cases h : size ≤ m
    · simp [purgeLoop, h]
    · simp [purgeLoop, h]
      omega
  | cons d rest ih =>
    intro size
    by_cases h : size ≤ m
    · simp [purgeLoop, h]
    · simpa [purgeLoop, h] using ih _

theorem purgeLoop_count_le (fsz : String → Nat) (root : String) (m : Int) :
    ∀ (dumps : List Dump) (size : Int),
      (purgeLoop fsz root m dumps size).trace.count PEvent.getOldestPrunableDump
        ≤ dumps.length + 1 := by
  intro dumps
  induction dumps with
  | nil =>
    intro size
    by_cases h : size ≤ m <;> simp [purgeLoop, h, List.count_cons]
  | cons d rest ih =>
    intro size
    by_cases h : size ≤ m
    · simp [purgeLoop, h]
    · have := ih (size - (fsz (dbFilename root d.id d.repository d.commit) : Int))
      simp only [purgeLoop, h, if_false, List.length_cons]
      simp [List.count_cons] at this ⊢
      omega

theorem purgeLoop_no_lock_events (fsz : String → Nat) (root : String) (m : Int) :
    ∀ (dumps : List Dump) (size : Int),
      (purgeLoop fsz root m dumps size).trace.all (fun e => !e.isLockEvent) = true := by
  intro dumps
  induction dumps with
  | nil =>
    intro size
    by_cases h : size ≤ m <;> simp [purgeLoop, h, PEvent.isLockEvent]
  | cons d rest ih =>
    intro size
    by_cases h : size ≤ m
    · simp [purgeLoop, h]
    · simpa [purgeLoop, h, PEvent.isLockEvent] using ih _

/-- C2: for every non-negative quota and initial directory size, when
`purgeOldDumps` returns without the no-candidate warning its running total
is at most `maximumSizeBytes`; when the candidates ran out while the size
still exceeded the quota, the loop exits with the warning and
`purgeOldDumps` still resolves successfully with that result. -/
theorem purgeOldDumps_respects_quota (o : PurgeOracle) (storageRoot : String)
    (maximumSizeBytes : Int) (h : 0 ≤ maximumSizeBytes) :
    (purgeOldDumps o storageRoot maximumSizeBytes).2
      = some (purgeLoop o.filesize storageRoot maximumSizeBytes o.dumps (o.initialSize : Int))
    ∧ ((purgeLoop o.filesize storageRoot maximumSizeBytes o.dumps (o.initialSize : Int)).warned
          = false →
        (purgeLoop o.filesize storageRoot maximumSizeBytes o.dumps (o.initialSize : Int)).finalSize
          ≤ maximumSizeBytes)
    ∧ ((purgeLoop o.filesize storageRoot maximumSizeBytes o.dumps (o.initialSize : Int)).warned
          = true →
        maximumSizeBytes <
          (purgeLoop o.filesize storageRoot maximumSizeBytes o.dumps
            (o.initialSize : Int)).finalSize) := by
  refine ⟨?_, (purgeLoop_warned_spec o.filesize storageRoot maximumSizeBytes o.dumps _).1,
    (purgeLoop_warned_spec o.filesize storageRoot maximumSizeBytes o.dumps _).2⟩
  simp [purgeOldDumps, not_lt.mpr h]

/-- Witness for C2 at the spec scenario: quota 1000, initial size 1100, one
prunable 600-byte dump. -/
theorem purgeOldDumps_respects_quota_witness :
    (purgeOldDumps purgeOracle0 "s" 1000).2
      = some (purgeLoop purgeOracle0.filesize "s" 1000 purgeOracle0.dumps
          (purgeOracle0.initialSize : Int))
    ∧ ((purgeLoop purgeOracle0.filesize "s" 1000 purgeOracle0.dumps
          (purgeOracle0.initialSize : Int)).warned = false →
        (purgeLoop purgeOracle0.filesize "s" 1000 purgeOracle0.dumps
          (purgeOracle0.initialSize : Int)).finalSize ≤ 1000)
    ∧ ((purgeLoop purgeOracle0.filesize "s" 1000 purgeOracle0.dumps
          (purgeOracle0.initialSize : Int)).warned = true →
        1000 < (purgeLoop purgeOracle0.filesize "s" 1000 purgeOracle0.dumps
          (purgeOracle0.initialSize : Int)).finalSize) :=
  purgeOldDumps_respects_quota purgeOracle0 "s" 1000 (by decide)

/-- C7: the purge loop makes at most N + 1 candidate requests when the
oracle yields a dump on each of its first N calls and none thereafter, for
every initial size and quota; in particular the loop terminates. -/
theorem purgeOldDumps_iteration_bound (o : PurgeOracle) (storageRoot : String)
    (maximumSizeBytes : Int) :
    (purgeOldDumps o storageRoot maximumSizeBytes).1.count PEvent.getOldestPrunableDump
      ≤ o.dumps.length + 1 := by
  by_cases h : maximumSizeBytes < 0
  · simp [purgeOldDumps, h]
  · have := purgeLoop_count_le o.filesize storageRoot maximumSizeBytes o.dumps
      (o.initialSize : Int)
    simp only [purgeOldDumps, h, if_false]
    simp [List.count_cons, List.count_append] at this ⊢
    omega

/-- C3: for every non-negative quota, the whole critical section — the
directory-size measurement and the entire candidate-selection-and-deletion
loop — runs between the acquisition and the release of the advisory lock
named "retention", and the loop itself performs no lock operation. -/
theorem purgeOldDumps_lock_scope (o : PurgeOracle) (storageRoot : String)
    (maximumSizeBytes : Int) (h : 0 ≤ maximumSizeBytes) :
    (purgeOldDumps o storageRoot maximumSizeBytes).1
      = PEvent.lockAcquire "retention" :: PEvent.dirsize ::
          ((purgeLoop o.filesize storageRoot maximumSizeBytes o.dumps
              (o.initialSize : Int)).trace
            ++ [PEvent.lockRelease "retention"])
    ∧ (purgeLoop o.filesize storageRoot maximumSizeBytes o.dumps
        (o.initialSize : Int)).trace.all (fun e => !e.isLockEvent) = true := by
  refine ⟨?_, purgeLoop_no_lock_events o.filesize storageRoot maximumSizeBytes o.dumps _⟩
  simp [purgeOldDumps, not_lt.mpr h]

/-- Witness for C3 at a concrete oracle and quota. -/
theorem purgeOldDumps_lock_scope_witness :
    (purgeOldDumps purgeOracle0 "s" 1000).1
      = PEvent.lockAcquire "retention" :: PEvent.dirsize ::
          ((purgeLoop purgeOracle0.filesize "s" 1000 purgeOracle0.dumps
              (purgeOracle0.initialSize : Int)).trace
            ++ [PEvent.lockRelease "retention"])
    ∧ (purgeLoop purgeOracle0.filesize "s" 1000 purgeOracle0.dumps
        (purgeOracle0.initialSize : Int)).trace.all (fun e => !e.isLockEvent) = true :=
  purgeOldDumps_lock_scope purgeOracle0 "s" 1000 (by decide)

/-- C8: for every storage root and negative quota, `purgeOldDumps` resolves
immediately as a no-op: empty trace (no lock acquisition, no directory
read, no deletion) and no loop result. -/
theorem purgeOldDumps_negative_noop (o : PurgeOracle) (storageRoot : String)
    (maximumSizeBytes : Int) (h : maximumSizeBytes < 0) :
    purgeOldDumps o storageRoot maximumSizeBytes = ([], none) := by
  simp [purgeOldDumps, h]

/-- Witness for C8 at quota -1. -/
theorem purgeOldDumps_negative_noop_witness :
    purgeOldDumps purgeOracle0 "s" (-1) = ([], none) :=
  purgeOldDumps_negative_noop purgeOracle0 "s" (-1) (by decide)

/-- C4: when `discoverTip` returns undefined, the visibility update throws
the no-tip error and its trace is exactly the tip discovery: neither
`discoverCommits`, `updateCommits` nor `updateDumpsVisibleFromTip` is
invoked, so no commit-graph write occurs. -/
theorem updateCommits_noTip (o : VisOracle) (u : Upload) (h : o.tip = none) :
    updateCommitsAndDumpsVisibleFromTip o u
      = (.error VisErr.noTip, [VisEvent.discoverTip]) := by
  simp [updateCommitsAndDumpsVisibleFromTip, h]

/-- Witness for C4 at a concrete oracle with an undefined tip. -/
theorem updateCommits_noTip_witness :
    updateCommitsAndDumpsVisibleFromTip ⟨none, fun _ => ([] : Graph)⟩ upload0
      = (.error VisErr.noTip, [VisEvent.discoverTip]) :=
  updateCommits_noTip ⟨none, fun _ => ([] : Graph)⟩ upload0 rfl

theorem Graph.get_set_self (g : Graph) (k : String) (v : Finset String) :
    (g.set k v).get k = some v := by
  induction g with
  | nil => simp [Graph.set, Graph.get]
  | cons a rest ih =>
    obtain ⟨b, w⟩ := a
    by_cases h : k = b <;> simp [Graph.set, Graph.get, h, ih]

theorem Graph.get_set_ne (g : Graph) (k k' : String) (v : Finset String) (h : k' ≠ k) :
    (g.set k v).get k' = g.get k' := by
  induction g with
  | nil => simp [Graph.set, Graph.get, h]
  | cons a rest ih =>
    obtain ⟨b, w⟩ := a
    by_cases hb : k = b
    · subst hb
      simp [Graph.set, Graph.get, h]
    · by_cases hb' : k' = b <;> simp [Graph.set, Graph.get, hb, hb', ih]

theorem Graph.keys_cons (b : String) (w : Finset String) (rest : Graph) :
    Graph.keys ((b, w) :: rest) = b :: Graph.keys rest := rfl

theorem Graph.keys_set (g : Graph) (k : String) (v : Finset String) :
    (g.set k v).keys = if k ∈ g.keys then g.keys else g.keys ++ [k] := by
  induction g with
  | nil => simp [Graph.set, Graph.keys]
  | cons a rest ih =>
    obtain ⟨b, w⟩ := a
    by_cases hb : k = b
    · subst hb
      simp [Graph.set, Graph.keys_cons]
    · by_cases hm : k ∈ Graph.keys rest <;>
        simp [Graph.set, Graph.keys_cons, hb, hm, ih]

theorem Graph.mem_keys_set (g : Graph) (k : String) (v : Finset String) (k' : String) :
    k' ∈ (g.set k v).keys ↔ k' = k ∨ k' ∈ g.keys := by
  rw [Graph.keys_set]
  by_cases hm : k ∈ g.keys
  · simp only [hm, if_true]
    constructor
    · exact Or.inr
    · rintro (h | h)
      · exact h ▸ hm
      · exact h
  · simp only [hm, if_false, List.mem_append, List.mem_singleton]
    tauto

theorem Graph.nodup_keys_set (g : Graph) (k : String) (v : Finset String)
    (h : g.keys.Nodup) : (g.set k v).keys.Nodup := by
  rw [Graph.keys_set]
  by_cases hm : k ∈ g.keys
  · simpa [hm] using h
  · simp [hm, List.nodup_append, h]

theorem Graph.get_eq_none_iff (g : Graph) (k : String) :
    g.get k = none ↔ k ∉ g.keys := by
  induction g with
  | nil => simp [Graph.get, Graph.keys]
  | cons a rest ih =>
    obtain ⟨b, w⟩ := a
    by_cases h : k = b <;> simp [Graph.get, Graph.keys_cons, h, ih]

theorem Graph.get_mem_keys (g : Graph) (k : String) (h : k ∈ g.keys) :
    g.get k = some (g.getD k) := by
  cases hg : g.get k with
  | none => exact absurd ((Graph.get_eq_none_iff g k).mp hg) (fun hn => hn h)
  | some v => simp [Graph.getD, hg]

theorem Graph.getD_eq_empty (g : Graph) (k : String) (h : k ∉ g.keys) :
    g.getD k = ∅ := by
  simp [Graph.getD, (Graph.get_eq_none_iff g k).mpr h]

theorem Graph.getD_set_self (g : Graph) (k : String) (v : Finset String) :
    (g.set k v).getD k = v := by
  simp [Graph.getD, Graph.get_set_self]

theorem Graph.getD_set_ne (g : Graph) (k k' : String) (v : Finset String) (h : k' ≠ k) :
    (g.set k v).getD k' = g.getD k' := by
  simp [Graph.getD, Graph.get_set_ne g k k' v h]

theorem Graph.getD_cons (b : String) (w : Finset String) (rest : Graph) (k : String) :
    Graph.getD ((b, w) :: rest) k = if k = b then w else rest.getD k := by
  by_cases h : k = b <;> simp [Graph.getD, Graph.get, h]

theorem mergeGraphs_nil (m1 : Graph) : mergeGraphs m1 [] = m1 := rfl

theorem mergeGraphs_cons (m1 : Graph) (a : String × Finset String) (m2 : Graph) :
    mergeGraphs m1 (a :: m2) = mergeGraphs (m1.set a.1 (m1.getD a.1 ∪ a.2)) m2 := rfl

theorem mergeGraphs_get :
    ∀ (m2 : Graph), m2.keys.Nodup → ∀ (m1 : Graph) (k : String),
      (mergeGraphs m1 m2).get k
        = if k ∈ m1.keys ∨ k ∈ m2.keys then some (m1.getD k ∪ m2.getD k) else none := by
  intro m2
  induction m2 with
  | nil =>
    intro _ m1 k
    rw [mergeGraphs_nil]
    by_cases h : k ∈ m1.keys
    · rw [Graph.get_mem_keys m1 k h, if_pos (Or.inl h)]
      have he : Graph.getD ([] : Graph) k = ∅ := rfl
      rw [he, Finset.union_empty]
    · have hc : ¬(k ∈ m1.keys ∨ k ∈ Graph.keys ([] : Graph)) := by
        rintro (h1 | h1)
        · exact h h1
        · simp [Graph.keys] at h1
      rw [(Graph.get_eq_none_iff m1 k).mpr h, if_neg hc]
  | cons a m2' ih =>
    intro h2 m1 k
    obtain ⟨b, v⟩ := a
    rw [Graph.keys_cons] at h2
    have hbm : b ∉ Graph.keys m2' := (List.nodup_cons.mp h2).1
    have h2' : (Graph.keys m2').Nodup := (List.nodup_cons.mp h2).2
    rw [mergeGraphs_cons, ih h2']
    by_cases hk : k = b
    · subst hk
      have hmem : k ∈ (m1.set k (m1.getD k ∪ v)).keys :=
        (Graph.mem_keys_set m1 k _ k).mpr (Or.inl rfl)
      rw [if_pos (Or.inl hmem), if_pos (Or.inr (by simp [Graph.keys_cons]))]
      rw [Graph.getD_set_self, Graph.getD_eq_empty m2' k hbm,
        Graph.getD_cons]
      simp
    · rw [Graph.getD_set_ne m1 b k _ hk, Graph.getD_cons]
      simp only [hk, if_false]
      have hiff : k ∈ (m1.set b (m1.getD b ∪ v)).keys ∨ k ∈ Graph.keys m2'
          ↔ k ∈ m1.keys ∨ k ∈ Graph.keys ((b, v) :: m2') := by
        rw [Graph.mem_keys_set, Graph.keys_cons]
        simp only [List.mem_cons]
        tauto
      by_cases hc : k ∈ m1.keys ∨ k ∈ Graph.keys ((b, v) :: m2')
      · rw [if_pos (hiff.mpr hc), if_pos hc]
      · rw [if_neg (fun h => hc (hiff.mp h)), if_neg hc]

theorem mergeGraphs_keys_nodup :
    ∀ (m2 m1 : Graph), m1.keys.Nodup → (mergeGraphs m1 m2).keys.Nodup := by
  intro m2
  induction m2 with
  | nil => intro m1 h1; exact h1
  | cons a m2' ih =>
    intro m1 h1
    rw [mergeGraphs_cons]
    exact ih _ (Graph.nodup_keys_set m1 a.1 _ h1)

theorem mem_keys_mergeGraphs (m2 : Graph) (h2 : m2.keys.Nodup) (m1 : Graph) (k : String) :
    k ∈ (mergeGraphs m1 m2).keys ↔ k ∈ m1.keys ∨ k ∈ m2.keys := by
  have hg := mergeGraphs_get m2 h2 m1 k
  by_cases hc : k ∈ m1.keys ∨ k ∈ m2.keys
  · rw [if_pos hc] at hg
    refine iff_of_true ?_ hc
    by_contra hn
    rw [(Graph.get_eq_none_iff _ k).mpr hn] at hg
    exact Option.noConfusion hg
  · rw [if_neg hc] at hg
    exact iff_of_false ((Graph.get_eq_none_iff _ k).mp hg) hc

theorem getD_mergeGraphs (m2 : Graph) (h2 : m2.keys.Nodup) (m1 : Graph) (k : String) :
    (mergeGraphs m1 m2).getD k = m1.getD k ∪ m2.getD k := by
  have hg := mergeGraphs_get m2 h2 m1 k
  by_cases hc : k ∈ m1.keys ∨ k ∈ m2.keys
  · rw [if_pos hc] at hg
    simp [Graph.getD, hg]
  · push_neg at hc
    rw [if_neg (by tauto)] at hg
    simp only [Graph.getD]
    rw [hg, (Graph.get_eq_none_iff m1 k).mpr hc.1, (Graph.get_eq_none_iff m2 k).mpr hc.2]
    simp

/-- C5: the merge performed by the visibility updater maps every key present
in either fragment to the union of that key's parent sets from both
fragments, and it is commutative and associative up to lookup: merging the
fragment discovered from the processed commit with the fragment discovered
from the tip yields the same graph in either order. -/
theorem mergeGraphs_union_comm_assoc (m1 m2 : Graph)
    (h1 : (Graph.keys m1).Nodup) (h2 : (Graph.keys m2).Nodup) :
    (∀ k, (mergeGraphs m1 m2).get k
        = if k ∈ m1.keys ∨ k ∈ m2.keys then some (m1.getD k ∪ m2.getD k) else none)
    ∧ (∀ k, (mergeGraphs m1 m2).get k = (mergeGraphs m2 m1).get k)
    ∧ (∀ m3 : Graph, (Graph.keys m3).Nodup →
        ∀ k, (mergeGraphs (mergeGraphs m1 m2) m3).get k
          = (mergeGraphs m1 (mergeGraphs m2 m3)).get k) := by
  refine ⟨fun k => mergeGraphs_get m2 h2 m1 k, fun k => ?_, fun m3 h3 k => ?_⟩
  · rw [mergeGraphs_get m2 h2 m1 k, mergeGraphs_get m1 h1 m2 k]
    by_cases hc : k ∈ m1.keys ∨ k ∈ m2.keys
    · rw [if_pos hc, if_pos (Or.symm hc), Finset.union_comm]
    · rw [if_neg hc, if_neg (fun h => hc (Or.symm h))]
  · rw [mergeGraphs_get m3 h3, mergeGraphs_get (mergeGraphs m2 m3) (mergeGraphs_keys_nodup m3 m2 h2)]
    simp only [mem_keys_mergeGraphs m2 h2, mem_keys_mergeGraphs m3 h3,
      getD_mergeGraphs m2 h2, getD_mergeGraphs m3 h3, or_assoc, Finset.union_assoc]

/-- Witness for C5 at two concrete fragments sharing the key "b". -/
theorem mergeGraphs_union_comm_assoc_witness :
    (∀ k, (mergeGraphs graph1 graph2).get k
        = if k ∈ graph1.keys ∨ k ∈ graph2.keys
          then some (graph1.getD k ∪ graph2.getD k) else none)
    ∧ (∀ k, (mergeGraphs graph1 graph2).get k = (mergeGraphs graph2 graph1).get k)
    ∧ (∀ m3 : Graph, (Graph.keys m3).Nodup →
        ∀ k, (mergeGraphs (mergeGraphs graph1 graph2) m3).get k
          = (mergeGraphs graph1 (mergeGraphs graph2 m3)).get k) :=
  mergeGraphs_union_comm_assoc graph1 graph2 (by decide) (by decide)

theorem insertAfterOverlap_append_unlink :
    ∀ (xs : List Event) (seen : Bool) (p : String),
      insertAfterOverlap seen (xs ++ [Event.unlink p]) = insertAfterOverlap seen xs := by
  intro xs
  induction xs with
  | nil => intro seen p; rfl
  | cons e rest ih =>
    intro seen p
    cases e <;> simp [insertAfterOverlap, ih]

theorem insertAfterOverlap_tryBody (o : ConvertOracle) (u : Upload) (storageRoot : String)
    (s : FsState) :
    insertAfterOverlap false (tryBody o u storageRoot s).trace = true := by
  obtain ⟨cr, ov, ins, ren, uf⟩ := o
  cases cr <;> cases ov <;> cases ins <;> cases ren <;>
    simp [tryBody, fsRename, insertAfterOverlap]

theorem convertDatabase_trace_eq (o : ConvertOracle) (u : Upload) (storageRoot : String)
    (s : FsState) :
    ∃ p, (convertDatabase o u storageRoot s).trace
      = (tryBody o u storageRoot s).trace ++ [Event.unlink p] := by
  simp only [convertDatabase]
  cases (tryBody o u storageRoot s).err? with
  | some e =>
    cases fsUnlink o (tryBody o u storageRoot s).fs (tempPath storageRoot u.filename) <;>
      exact ⟨_, rfl⟩
  | none =>
    cases fsUnlink o (tryBody o u storageRoot s).fs u.filename <;> exact ⟨_, rfl⟩

theorem convertDatabase_trace_none (o : ConvertOracle) (u : Upload) (storageRoot : String)
    (s : FsState) (h : (tryBody o u storageRoot s).err? = none) :
    (convertDatabase o u storageRoot s).trace
      = (tryBody o u storageRoot s).trace ++ [Event.unlink u.filename] := by
  simp only [convertDatabase, h]
  cases fsUnlink o (tryBody o u storageRoot s).fs u.filename <;> rfl

/-- C6: for every upload processed with all steps succeeding, the calls
happen in this strict order, each completed before the next: convert to the
temp file, delete overlapping dumps, add packages and references, rename
the temp file to its final path, remove the upload source file; moreover in
every run (failing ones included) an insert of packages and references only
occurs after the overlap deletion. -/
theorem convertDatabase_strict_order (o : ConvertOracle) (u : Upload) (storageRoot : String)
    (s : FsState) (hconv : o.convResult = .ok) (hov : o.overlapFails = false)
    (hins : o.insertFails = false) (hren : o.renameFails = false) :
    (convertDatabase o u storageRoot s).trace
      = [Event.convert u.filename (tempPath storageRoot u.filename),
         Event.deleteOverlapping u.repository u.commit u.root,
         Event.addPackagesAndReferences u.id,
         Event.rename (tempPath storageRoot u.filename)
           (dbFilename storageRoot u.id u.repository u.commit),
         Event.unlink u.filename]
    ∧ ∀ (o2 : ConvertOracle) (s2 : FsState),
        insertAfterOverlap false (convertDatabase o2 u storageRoot s2).trace = true := by
  constructor
  · have he : (tryBody o u storageRoot s).err? = none := by
      simp [tryBody, fsRename, hconv, hov, hins, hren]
    have ht : (tryBody o u storageRoot s).trace
        = [Event.convert u.filename (tempPath storageRoot u.filename),
           Event.deleteOverlapping u.repository u.commit u.root,
           Event.addPackagesAndReferences u.id,
           Event.rename (tempPath storageRoot u.filename)
             (dbFilename storageRoot u.id u.repository u.commit)] := by
      simp [tryBody, fsRename, hconv, hov, hins, hren]
    rw [convertDatabase_trace_none o u storageRoot s he, ht]
    rfl
  · intro o2 s2
    obtain ⟨p, hp⟩ := convertDatabase_trace_eq o2 u storageRoot s2
    rw [hp, insertAfterOverlap_append_unlink]
    exact insertAfterOverlap_tryBody o2 u storageRoot s2

/-- Witness for C6 at a concrete all-success oracle. -/
theorem convertDatabase_strict_order_witness :
    (convertDatabase convOracleOk upload0 "s" fsState0).trace
      = [Event.convert upload0.filename (tempPath "s" upload0.filename),
         Event.deleteOverlapping upload0.repository upload0.commit upload0.root,
         Event.addPackagesAndReferences upload0.id,
         Event.rename (tempPath "s" upload0.filename)
           (dbFilename "s" upload0.id upload0.repository upload0.commit),
         Event.unlink upload0.filename]
    ∧ ∀ (o2 : ConvertOracle) (s2 : FsState),
        insertAfterOverlap false (convertDatabase o2 upload0 "s" s2).trace = true :=
  convertDatabase_strict_order convOracleOk upload0 "s" fsState0 rfl rfl rfl rfl

theorem tryBody_failure_state (o : ConvertOracle) (u : Upload) (storageRoot : String)
    (s : FsState)
    (hfail : o.convResult = .failCreated
      ∨ (o.convResult = .ok
          ∧ (o.overlapFails = true ∨ o.insertFails = true ∨ o.renameFails = true))) :
    (tryBody o u storageRoot s).err? = some (firstFailure o)
    ∧ (tryBody o u storageRoot s).fs
        = ⟨tempPath storageRoot u.filename :: s.files⟩ := by
  rcases hfail with h | ⟨h, hf⟩
  · simp [tryBody, firstFailure, h]
  · rcases hf with hf | hf | hf
    · simp [tryBody, firstFailure, h, hf]
    · cases ho : o.overlapFails
      · simp [tryBody, firstFailure, h, hf, ho]
      · simp [tryBody, firstFailure, h, hf, ho]
    · cases ho : o.overlapFails
      · cases hi : o.insertFails
        · simp [tryBody, firstFailure, h, hf, ho, hi, fsRename]
        · simp [tryBody, firstFailure, h, ho, hi]
      · simp [tryBody, firstFailure, h, ho]

/-- C1: for every upload, when a step of the try block fails after the
converter has created the temp file (converter failure with a partial file,
overlap-deletion failure, dependency-insert failure, or rename failure) and
the cleanup unlink itself succeeds, `convertDatabase` deletes the temp
file, leaves the upload source file in place, and re-raises the original
error of the failing step unchanged. -/
theorem convertDatabase_failure_cleanup (o : ConvertOracle) (u : Upload) (storageRoot : String)
    (s : FsState)
    (hfail : o.convResult = .failCreated
      ∨ (o.convResult = .ok
          ∧ (o.overlapFails = true ∨ o.insertFails = true ∨ o.renameFails = true)))
    (hclean : o.unlinkFails (tempPath storageRoot u.filename) = false)
    (hne : tempPath storageRoot u.filename ≠ u.filename)
    (hsrc : u.filename ∈ s.files) :
    (convertDatabase o u storageRoot s).result = .error (firstFailure o)
    ∧ tempPath storageRoot u.filename ∉ (convertDatabase o u storageRoot s).fs.files
    ∧ u.filename ∈ (convertDatabase o u storageRoot s).fs.files := by
  obtain ⟨ke, kf⟩ := tryBody_failure_state o u storageRoot s hfail
  have hne' : u.filename ≠ tempPath storageRoot u.filename := Ne.symm hne
  simp only [convertDatabase, ke, kf]
  simp [fsUnlink, hclean, hsrc, hne', List.mem_filter]

/-- Witness for C1: the converter fails after creating a partial temp file;
the temp file is removed, the source file survives, the conversion error
propagates. -/
theorem convertDatabase_failure_cleanup_witness :
    (convertDatabase convOracleFailCreated upload0 "s" fsState0).result
        = .error (firstFailure convOracleFailCreated)
    ∧ tempPath "s" upload0.filename
        ∉ (convertDatabase convOracleFailCreated upload0 "s" fsState0).fs.files
    ∧ upload0.filename ∈ (convertDatabase convOracleFailCreated upload0 "s" fsState0).fs.files :=
  convertDatabase_failure_cleanup convOracleFailCreated upload0 "s" fsState0
    (Or.inl rfl) rfl (by decide) (by decide)

/-- C9: when the converter fails without having created the temp file, the
catch-block unlink of the temp path itself throws ENOENT, and that
filesystem error — not the original conversion error — propagates out of
`convertDatabase`. -/
theorem convertDatabase_enoent_from_cleanup (o : ConvertOracle) (u : Upload)
    (storageRoot : String) (s : FsState)
    (hconv : o.convResult = .failNotCreated)
    (htmp : tempPath storageRoot u.filename ∉ s.files) :
    (convertDatabase o u storageRoot s).result
        = .error (.enoent (tempPath storageRoot u.filename))
    ∧ (convertDatabase o u storageRoot s).result ≠ .error Err.convertErr := by
  have h : (convertDatabase o u storageRoot s).result
      = .error (.enoent (tempPath storageRoot u.filename)) := by
    simp [convertDatabase, tryBody, fsUnlink, hconv, htmp]
  exact ⟨h, by rw [h]; simp⟩

/-- Witness for C9: converter fails with no temp file present; the ENOENT
of the cleanup unlink propagates. -/
theorem convertDatabase_enoent_from_cleanup_witness :
    (convertDatabase convOracleNotCreated upload0 "s" fsState0).result
        = .error (.enoent (tempPath "s" upload0.filename))
    ∧ (convertDatabase convOracleNotCreated upload0 "s" fsState0).result
        ≠ .error Err.convertErr :=
  convertDatabase_enoent_from_cleanup convOracleNotCreated upload0 "s" fsState0
    rfl (by decide)

/-- C10: when every step up to and including the rename succeeds but the
final unlink of the upload source file fails, `convertDatabase` throws even
though the artifact is fully published: the artifact file is at its final
path, the packages-and-references insert happened, and the catch-block
temp-file cleanup is not executed. -/
theorem convertDatabase_publish_despite_unlink_failure (o : ConvertOracle) (u : Upload)
    (storageRoot : String) (s : FsState)
    (hconv : o.convResult = .ok) (hov : o.overlapFails = false)
    (hins : o.insertFails = false) (hren : o.renameFails = false)
    (huf : o.unlinkFails u.filename = true)
    (hsrc : u.filename ∈ s.files)
    (hne : tempPath storageRoot u.filename ≠ u.filename) :
    (convertDatabase o u storageRoot s).result = .error (.unlinkErr u.filename)
    ∧ dbFilename storageRoot u.id u.repository u.commit
        ∈ (convertDatabase o u storageRoot s).fs.files
    ∧ Event.addPackagesAndReferences u.id ∈ (convertDatabase o u storageRoot s).trace
    ∧ Event.unlink (tempPath storageRoot u.filename)
        ∉ (convertDatabase o u storageRoot s).trace := by
  have hne' : u.filename ≠ tempPath storageRoot u.filename := Ne.symm hne
  have ht : tryBody o u storageRoot s
      = ⟨none,
         ⟨dbFilename storageRoot u.id u.repository u.commit ::
           (tempPath storageRoot u.filename :: s.files).filter
             (fun q => q ≠ tempPath storageRoot u.filename)⟩,
         [Event.convert u.filename (tempPath storageRoot u.filename),
          Event.deleteOverlapping u.repository u.commit u.root,
          Event.addPackagesAndReferences u.id,
          Event.rename (tempPath storageRoot u.filename)
            (dbFilename storageRoot u.id u.repository u.commit)]⟩ := by
    simp [tryBody, fsRename, hconv, hov, hins, hren]
  simp only [convertDatabase, ht]
  simp [fsUnlink, huf, hsrc, hne', hne, List.mem_filter]

/-- Witness for C10: all steps succeed except the final source unlink. -/
theorem convertDatabase_publish_despite_unlink_failure_witness :
    (convertDatabase convOracleSrcUnlinkFail upload0 "s" fsState0).result
        = .error (.unlinkErr upload0.filename)
    ∧ dbFilename "s" upload0.id upload0.repository upload0.commit
        ∈ (convertDatabase convOracleSrcUnlinkFail upload0 "s" fsState0).fs.files
    ∧ Event.addPackagesAndReferences upload0.id
        ∈ (convertDatabase convOracleSrcUnlinkFail upload0 "s" fsState0).trace
    ∧ Event.unlink (tempPath "s" upload0.filename)
        ∉ (convertDatabase convOracleSrcUnlinkFail upload0 "s" fsState0).trace :=
  convertDatabase_publish_despite_unlink_failure convOracleSrcUnlinkFail upload0 "s" fsState0
    rfl rfl rfl rfl (by decide) (by decide) (by decide)
